import Mathlib

/-!
# Verification of the mbasicc interpreter core against its specification

This file is a shallow embedding, in Lean 4, of the parts of the mbasicc
MBASIC-80 interpreter (C++ sources: `value.hpp`, `runtime.hpp`/`runtime.cpp`,
`interpreter.cpp`, `parser.cpp`) that the specification claims talk about,
together with theorems settling those claims.

Modelling conventions:
* C++ `double`/`float` values are modelled as rationals `ℚ` (exact
  arithmetic); the `float`-narrowing cast in `coerce_to` is modelled as the
  identity on `ℚ`.  `int16_t` is modelled as `ℤ` (the code's own clamping in
  `to_integer` keeps stored integers inside `[-32768, 32767]`).
* `std::map` / `std::unordered_map` / `std::vector` are modelled as
  association lists / lists.  Where the C++ container has *unspecified*
  iteration order (`std::unordered_map`), the model fixes insertion order as
  one concrete legal order and says so in the doc string of the definition.
* Functions that can raise a runtime error (C++ `throw RuntimeError`) return
  a pair of the mutated runtime and an `Option` error code, because
  `Interpreter::raise_error` mutates the runtime (through the reference it
  holds) before throwing.
* C++ undefined behaviour (integer division by zero) is made explicit as a
  distinguished error value, since the C++ semantics assigns it no result.
-/

namespace MBasic

/-! ## Value system (value.hpp) -/

/-- `enum class VarType` from value.hpp: `INTEGER` (`%`), `SINGLE` (`!`),
`DOUBLE` (`#`), `STRING` (`$`). -/
inductive VarType where
  | INTEGER
  | SINGLE
  | DOUBLE
  | STRING
deriving DecidableEq, Repr

/-- `using Value = std::variant<int16_t, float, double, std::string>` from
value.hpp.  Numeric payloads are modelled as `ℤ` / `ℚ`. -/
inductive Value where
  | vInt (n : ℤ)
  | vSingle (x : ℚ)
  | vDouble (x : ℚ)
  | vStr (s : String)
deriving DecidableEq, Repr

/-- `get_type` from value.hpp: the `VarType` tag of a `Value`. -/
def getType : Value → VarType
  | .vInt _ => .INTEGER
  | .vSingle _ => .SINGLE
  | .vDouble _ => .DOUBLE
  | .vStr _ => .STRING

/-- `is_string` from value.hpp. -/
def isString : Value → Bool
  | .vStr _ => true
  | _ => false

/-- `to_number` from value.hpp: numeric payload widened to double; a string
yields `0.0` (the source comment reads "Type mismatch - should throw, but
return 0 for now"). -/
def toNumber : Value → ℚ
  | .vInt n => (n : ℚ)
  | .vSingle x => x
  | .vDouble x => x
  | .vStr _ => 0

/-- `std::rint` under the default rounding mode: round to nearest, ties to
even, as used by `to_integer` in value.hpp. -/
def rintQ (q : ℚ) : ℤ :=
  let f : ℤ := ⌊q⌋
  let r : ℚ := q - (f : ℚ)
  if r < 1/2 then f
  else if 1/2 < r then f + 1
  else if f % 2 = 0 then f else f + 1

/-- `to_integer` from value.hpp: banker's rounding via `rint`, with clamping
to the `int16_t` range at `32767.5` / `-32768.5`. -/
def toInteger (v : Value) : ℤ :=
  let d := toNumber v
  if 32767.5 ≤ d then 32767
  else if d ≤ -32768.5 then -32768
  else rintQ d

/-- `to_bool` from value.hpp: a string is true iff non-empty, a number is
true iff non-zero. -/
def toBool : Value → Bool
  | .vStr s => !s.isEmpty
  | .vInt n => n != 0
  | .vSingle x => x != 0
  | .vDouble x => x != 0

/-- `coerce_to` from value.hpp.  Note that it is *total*: coercing a string
to a numeric type goes through `to_number` (which yields `0`), and coercing
a number to `STRING` yields the empty string — no *Type mismatch* error is
raised anywhere on this path. -/
def coerceTo (v : Value) (target : VarType) : Value :=
  match target with
  | .INTEGER => .vInt (toInteger v)
  | .SINGLE => .vSingle (toNumber v)
  | .DOUBLE => .vDouble (toNumber v)
  | .STRING => if isString v then v else .vStr ""

/-- `default_value` / `Runtime::default_for_type`: the zero value of a type. -/
def defaultValue : VarType → Value
  | .INTEGER => .vInt 0
  | .SINGLE => .vSingle 0
  | .DOUBLE => .vDouble 0
  | .STRING => .vStr ""

/-! ## Scalar variable store (runtime.cpp) -/

/-- `Runtime::resolve_type` from runtime.cpp: trailing type suffix if
present, else the `DEFtype` map entry for the lowercased first letter when
that first character is alphabetic, else `SINGLE`.  The `def_type_map`
(`std::map<char, VarType>`, lookups defaulting to `SINGLE` when the key is
absent) is modelled as a total function `Char → VarType`. -/
def resolveType (dtm : Char → VarType) (name : String) : VarType :=
  if name ≠ "" ∧ name.back = '%' then .INTEGER
  else if name ≠ "" ∧ name.back = '!' then .SINGLE
  else if name ≠ "" ∧ name.back = '#' then .DOUBLE
  else if name ≠ "" ∧ name.back = '$' then .STRING
  else if name ≠ "" ∧ (name.get 0).isAlpha then dtm (name.get 0).toLower
  else .SINGLE

/-- Association-list update used to model `variables_[name] = v`
(`std::unordered_map::operator[]`): replace the binding if the key is
present, otherwise add a new binding. -/
def storePut (vars : List (String × Value)) (name : String) (v : Value) :
    List (String × Value) :=
  match vars with
  | [] => [(name, v)]
  | (n, w) :: rest =>
    if n = name then (n, v) :: rest else (n, w) :: storePut rest name v

/-- `Runtime::set_variable` from runtime.cpp: coerce the value to the name's
resolved type, then store it. -/
def setVariableS (dtm : Char → VarType) (vars : List (String × Value))
    (name : String) (value : Value) : List (String × Value) :=
  storePut vars name (coerceTo value (resolveType dtm name))

/-- `Runtime::get_variable` from runtime.cpp: the stored value if present,
else the default value of the name's resolved type. -/
def getVariableS (dtm : Char → VarType) (vars : List (String × Value))
    (name : String) : Value :=
  match vars.lookup name with
  | some v => v
  | none => defaultValue (resolveType dtm name)

/-! ## Program counter and statement table (runtime.hpp / runtime.cpp) -/

/-- `enum class StopReason` from runtime.hpp. -/
inductive StopReason where
  | RUNNING
  | END_
  | STOP
  | BREAKPOINT
  | ERROR
  | INPUT
  | BREAK
deriving DecidableEq, Repr

/-- `struct PC` from runtime.hpp: `(line, stmt-index, reason)`. -/
structure PC where
  line : ℤ := 0
  stmt : ℤ := 0
  reason : StopReason := .RUNNING
deriving DecidableEq, Repr

/-- `PC::running_at`. -/
def PC.runningAt (l s : ℤ) : PC := ⟨l, s, .RUNNING⟩

/-- `PC::halted`. -/
def PC.halted (r : StopReason := .END_) : PC := ⟨0, 0, r⟩

/-- `PC::is_running`. -/
def PC.isRunning (pc : PC) : Bool := pc.reason = .RUNNING

/-- Model of `StatementTable`: the `(line, stmt) → Stmt*` map `table_` and
the sorted vector `line_numbers_` are represented as the list of lines in
ascending line-number order, each carrying its statement count (so the
table contains `(l, s)` exactly when `s < count l`).  `line_first_stmt_` is
always `0` for every line (as written by `StatementTable::build`). -/
structure StatementTable where
  lines : List (ℤ × ℕ)
deriving DecidableEq, Repr

/-- Membership test backing `table_.find({line, stmt}) != table_.end()`
(also `StatementTable::valid`). -/
def StatementTable.containsStmt (t : StatementTable) (l s : ℤ) : Bool :=
  t.lines.any (fun p => p.1 = l ∧ 0 ≤ s ∧ s < (p.2 : ℤ))

/-- `StatementTable::first`: halted for an empty table, else the first
statement of the lowest line. -/
def StatementTable.first (t : StatementTable) : PC :=
  match t.lines with
  | [] => PC.halted
  | (l, _) :: _ => PC.runningAt l 0

/-- `StatementTable::next`: the next statement on the same line if the table
has one, else statement 0 of the next larger line (`std::upper_bound` on the
sorted `line_numbers_`, i.e. the first list entry with a larger line
number), else halted. -/
def StatementTable.next (t : StatementTable) (current : PC) : PC :=
  if t.containsStmt current.line (current.stmt + 1) then
    PC.runningAt current.line (current.stmt + 1)
  else
    match t.lines.find? (fun p => current.line < p.1) with
    | some (l, _) => PC.runningAt l 0
    | none => PC.halted

/-- `StatementTable::find_line`: statement 0 of the line (its
`line_first_stmt_` entry is always 0), or halted-with-ERROR when the line
is absent. -/
def StatementTable.findLine (t : StatementTable) (l : ℤ) : PC :=
  if t.lines.any (fun p => p.1 = l) then PC.runningAt l 0
  else PC.halted .ERROR

/-! ## Runtime state (runtime.hpp) -/

/-- `struct ForLoopState` from runtime.hpp. -/
structure ForLoopState where
  resume_pc : PC
  end_value : ℚ
  step_value : ℚ
deriving DecidableEq, Repr

/-- `struct StackEntry` from runtime.hpp: a `GOSUB` frame carrying its
return PC, or a `WHILE` frame carrying the PC of the `WHILE` itself. -/
inductive StackEntry where
  | gosub (return_pc : PC)
  | whileE (loop_pc : PC)
deriving DecidableEq, Repr

/-- Whether a stack entry is a `GOSUB` frame. -/
def StackEntry.isGosub : StackEntry → Bool
  | .gosub _ => true
  | .whileE _ => false

/-- `struct ArrayData` held in `arrays_` (runtime.hpp). -/
structure ArrayData where
  dimensions : List ℤ
  data : List Value
  type : VarType
deriving DecidableEq, Repr

/-- `class Runtime` from runtime.hpp.  Containers are modelled as lists in
iteration order; `for_states` is an `std::unordered_map` whose iteration
order is unspecified in C++ — the model fixes insertion order (new keys
appended at the end) as one concrete legal order.  The payloads of
`user_functions` (AST pointers) and `files` (`std::fstream` handles) are
irrelevant to the claims treated here, so those containers are modelled by
their key lists. -/
structure Runtime where
  pc : PC := .halted
  next_pc : Option PC := none
  statements : StatementTable := ⟨[]⟩
  exec_stack : List StackEntry := []
  for_states : List (String × ForLoopState) := []
  data_values : List Value := []
  data_ptr : ℕ := 0
  data_line_map : List (ℤ × ℕ) := []
  user_functions : List String := []
  files : List ℕ := []
  field_buffers : List ℕ := []
  error_handler_line : Option ℤ := none
  error_handler_is_gosub : Bool := false
  last_error_code : ℤ := 0
  last_error_line : ℤ := 0
  error_pc : Option PC := none
  vars : List (String × Value) := [("err%", .vInt 0), ("erl%", .vInt 0)]
  arrays : List (String × ArrayData) := []
  array_base : ℤ := 0
  trace_on : Bool := false
  break_requested : Bool := false
  breakpoints : List PC := []
  def_type_map : Char → VarType := fun _ => .SINGLE

/-- `Runtime::set_variable` at the runtime level. -/
def Runtime.setVariable (rt : Runtime) (name : String) (v : Value) : Runtime :=
  { rt with vars := setVariableS rt.def_type_map rt.vars name v }

/-- `Runtime::get_variable` at the runtime level. -/
def Runtime.getVariable (rt : Runtime) (name : String) : Value :=
  getVariableS rt.def_type_map rt.vars name

/-- `Runtime::reset` from runtime.cpp: drop all variables except `err%` and
`erl%`, drop arrays, set the PC back to the first statement, clear the jump
target, the execution stack and the FOR records, rewind the DATA cursor,
reset `OPTION BASE`, trace and break flags, disable the error handler, and
close and drop all files and field buffers.  It does *not* touch
`data_values`, `data_line_map`, `user_functions`, `breakpoints`,
`def_type_map` or the statement table. -/
def Runtime.reset (rt : Runtime) : Runtime :=
  { rt with
    vars := [("err%", rt.getVariable "err%"), ("erl%", rt.getVariable "erl%")]
    arrays := []
    pc := rt.statements.first
    next_pc := none
    exec_stack := []
    for_states := []
    data_ptr := 0
    array_base := 0
    trace_on := false
    break_requested := false
    error_handler_line := none
    error_handler_is_gosub := false
    files := []
    field_buffers := [] }

/-! ## Error raising and PC advance (interpreter.cpp) -/

/-- `Interpreter::raise_error`: record `last_error_code` / `last_error_line`
on the runtime, then throw.  The thrown error is modelled as the second
component of the result (its numeric code, per error.hpp). -/
def raiseError (rt : Runtime) (code : ℤ) : Runtime × Option ℤ :=
  ({ rt with last_error_code := code, last_error_line := rt.pc.line },
   some code)

/-- `Interpreter::advance_pc`: take a pending jump target if one is set,
else step a running PC to the sequentially next statement. -/
def advancePc (rt : Runtime) : Runtime :=
  match rt.next_pc with
  | some p => { rt with pc := p, next_pc := none }
  | none =>
    if rt.pc.isRunning then { rt with pc := rt.statements.next rt.pc }
    else rt

/-- `Interpreter::jump_to`: look up the line's PC and make it the pending
jump target, raising *Undefined line number* (code 8) when the resulting
PC is not a valid table entry. -/
def jumpTo (rt : Runtime) (line : ℤ) : Runtime × Option ℤ :=
  let target := rt.statements.findLine line
  if rt.statements.containsStmt target.line target.stmt then
    ({ rt with next_pc := some target }, none)
  else raiseError rt 8

/-! ## CLEAR (interpreter.cpp `exec_clear`) -/

/-- `Interpreter::exec_clear`: delegates to `Runtime::reset`. -/
def execClear (rt : Runtime) : Runtime := rt.reset

/-! ## RESUME (interpreter.cpp `exec_resume`) -/

/-- Model of `ResumeStmt`: `RESUME NEXT` flag and optional explicit target
line. -/
structure ResumeStmt where
  isNext : Bool := false
  target_line : Option ℤ := none

/-- `Interpreter::exec_resume`:  The system variable `err%` is reset to `0`
*first*; only then is the presence of a captured error PC checked, raising
*RESUME without error* (code 20) when there is none — so the reset of
`err%` survives the failed `RESUME`.  `RESUME NEXT` targets the statement
after the faulting PC, `RESUME n` goes through `jump_to` (which may raise
*Undefined line number*, in which case the error PC is not cleared), and
plain `RESUME` re-targets the faulting PC itself. -/
def execResume (rt : Runtime) (s : ResumeStmt) : Runtime × Option ℤ :=
  let rt := rt.setVariable "err%" (.vInt 0)
  match rt.error_pc with
  | none => raiseError rt 20
  | some epc =>
    if s.isNext then
      let rt2 := { rt with next_pc := some (rt.statements.next epc) }
      ({ rt2 with error_pc := none }, none)
    else
      match s.target_line with
      | some n =>
        match jumpTo rt n with
        | (rt2, some e) => (rt2, some e)
        | (rt2, none) => ({ rt2 with error_pc := none }, none)
      | none => ({ rt with next_pc := some epc, error_pc := none }, none)

/-! ## GOSUB / RETURN (interpreter.cpp `exec_gosub`, `exec_return`) -/

/-- `Interpreter::exec_gosub`: push a GOSUB frame whose return PC is the
statement after the GOSUB, then jump (possibly raising *Undefined line
number* through `jump_to`). -/
def execGosub (rt : Runtime) (target : ℤ) : Runtime × Option ℤ :=
  jumpTo
    { rt with
      exec_stack := rt.exec_stack ++ [.gosub (rt.statements.next rt.pc)] }
    target

/-- The reverse scan of `exec_return`: find the GOSUB frame nearest to the
top of the stack (the stack grows by `push_back`, so the nearest GOSUB is
the *last* one in the list), remove exactly that entry, and yield its
return PC.  All other entries — including WHILE frames above the GOSUB —
are kept. -/
def removeNearestGosub : List StackEntry → Option (List StackEntry × PC)
  | [] => none
  | e :: rest =>
    match removeNearestGosub rest with
    | some (rest2, p) => some (e :: rest2, p)
    | none =>
      match e with
      | .gosub p => some (rest, p)
      | .whileE _ => none

/-- `Interpreter::exec_return`: erase the GOSUB frame nearest the top of
the execution stack and jump to its return PC (or to the explicit
`RETURN n` target); raise *RETURN without GOSUB* (code 3) if no GOSUB frame
exists.  Note: entries above the erased GOSUB (e.g. WHILE frames) are left
on the stack. -/
def execReturn (rt : Runtime) (target : Option ℤ) : Runtime × Option ℤ :=
  match removeNearestGosub rt.exec_stack with
  | some (st, rpc) =>
    let npc :=
      match target with
      | some n => rt.statements.findLine n
      | none => rpc
    ({ rt with exec_stack := st, next_pc := some npc }, none)
  | none => raiseError rt 3

/-! ## FOR / NEXT (interpreter.cpp `exec_for`, `exec_next`) -/

/-- `for_states[name] = state` (`std::unordered_map::operator[]`): replace
if present, else insert.  The model appends new keys, fixing insertion
order as the map's (in C++ unspecified) iteration order. -/
def forStatesPut (fs : List (String × ForLoopState)) (name : String)
    (st : ForLoopState) : List (String × ForLoopState) :=
  match fs with
  | [] => [(name, st)]
  | (n, w) :: rest =>
    if n = name then (n, st) :: rest else (n, w) :: forStatesPut rest name st

/-- `for_states.erase(name)`. -/
def forStatesErase (fs : List (String × ForLoopState)) (name : String) :
    List (String × ForLoopState) :=
  fs.filter (fun p => p.1 ≠ name)

/-- The per-variable body of the loop in `Interpreter::exec_next`: look up
the FOR record (raising *NEXT without FOR*, code 1, if absent), add the
step to the loop variable, and either erase the record (loop done) or jump
back to the statement after the FOR header. -/
def nextStepVar (rt : Runtime) (name : String) : Runtime × Option ℤ :=
  match rt.for_states.lookup name with
  | none => raiseError rt 1
  | some st =>
    let current := toNumber (rt.getVariable name) + st.step_value
    let rt := rt.setVariable name (.vDouble current)
    let done :=
      if st.step_value > 0 then current > st.end_value
      else current < st.end_value
    if done then
      ({ rt with for_states := forStatesErase rt.for_states name }, none)
    else
      ({ rt with next_pc := some (rt.statements.next st.resume_pc) }, none)

/-- `Interpreter::exec_next` for `NEXT` with *no* variable list: if no FOR
record exists, raise *NEXT without FOR* (code 1); otherwise step the
variable of `for_states.begin()` — the *first element in the unordered
map's iteration order* (the source comments: "Find most recently added FOR
(we don't track order, so just pick one)").  In this model the iteration
order is insertion order, so `begin()` is the *oldest* record, not the most
recently pushed one. -/
def execNextBare (rt : Runtime) : Runtime × Option ℤ :=
  match rt.for_states with
  | [] => raiseError rt 1
  | (n, _) :: _ => nextStepVar rt n

/-! ## LET and scalar assignment (interpreter.cpp `exec_let`, `set_lvalue`) -/

/-- Model of `VariableExpr` (ast.hpp): normalized lowercase name including
any type suffix, and the resolved `VarType` computed by the parser. -/
structure VariableExpr where
  name : String
  type : VarType
deriving DecidableEq, Repr

/-- The scalar branch of `Interpreter::set_lvalue`:
`runtime_.set_variable(v.name, coerce_to(val, v.type))`.  The value is
coerced to the AST-resolved type and then stored (where `set_variable`
coerces once more, to `resolve_type(name)`).  The function is *total*: no
path raises *Type mismatch*. -/
def setLvalueVar (rt : Runtime) (v : VariableExpr) (val : Value) : Runtime :=
  rt.setVariable v.name (coerceTo val v.type)

/-- `Interpreter::exec_let` for a scalar target: evaluate the right-hand
side (taken here as an already-evaluated `Value`) and assign it through
`set_lvalue`. -/
def execLet (rt : Runtime) (target : VariableExpr) (rhs : Value) : Runtime :=
  setLvalueVar rt target rhs

/-! ## DATA collection and RESTORE (runtime.cpp `collect_data`,
`restore_data`, `read_data`) -/

/-- The statement shapes that `Runtime::collect_data` distinguishes: a
`DATA` statement carrying its values, or anything else. -/
inductive DStmt where
  | data (vals : List Value)
  | other
deriving DecidableEq, Repr

/-- `data_line_map[line] = start_idx` (`std::unordered_map::operator[]`):
replace if present, else insert. -/
def lineMapPut (m : List (ℤ × ℕ)) (l : ℤ) (idx : ℕ) : List (ℤ × ℕ) :=
  match m with
  | [] => [(l, idx)]
  | (k, v) :: rest =>
    if k = l then (k, idx) :: rest else (k, v) :: lineMapPut rest l idx

/-- The inner statement loop of `Runtime::collect_data` for one line: for
*each* `DATA` statement the map entry for the line is overwritten with the
pool size at that moment, and the statement's values are appended to the
pool.  (Hence after the loop the map points at the *last* `DATA` statement
of the line, not the first.) -/
def collectLine (l : ℤ) (stmts : List DStmt)
    (acc : List Value × List (ℤ × ℕ)) : List Value × List (ℤ × ℕ) :=
  match stmts with
  | [] => acc
  | .data vals :: rest =>
    collectLine l rest (acc.1 ++ vals, lineMapPut acc.2 l acc.1.length)
  | .other :: rest => collectLine l rest acc

/-- `Runtime::collect_data`: walk the program lines in order, building the
data pool and the line → index map; the cursor is reset to 0. -/
def collectData (prog : List (ℤ × List DStmt)) : List Value × List (ℤ × ℕ) :=
  prog.foldl (fun acc line => collectLine line.1 line.2 acc) ([], [])

/-- `Runtime::restore_data`: bare `RESTORE` rewinds to 0; `RESTORE n` takes
the map entry for line `n` if present, else scans the map (in iteration
order, modelled as insertion order) for the first entry with line ≥ `n`,
else parks the cursor at the end of the pool. -/
def restoreData (dataValues : List Value) (m : List (ℤ × ℕ))
    (line : Option ℤ) : ℕ :=
  match line with
  | none => 0
  | some n =>
    match m.lookup n with
    | some idx => idx
    | none =>
      match m.find? (fun p => n ≤ p.1) with
      | some (_, idx) => idx
      | none => dataValues.length

/-- `Runtime::read_data`: the value under the cursor (which then advances),
or *Out of DATA* (code 4) past the end. -/
def readData (dataValues : List Value) (ptr : ℕ) : Except ℤ (Value × ℕ) :=
  match dataValues.get? ptr with
  | some v => .ok (v, ptr + 1)
  | none => .error 4

/-! ## Arithmetic binary operators (interpreter.cpp `eval_binary`) -/

/-- The three division-like operators of `eval_binary`'s numeric switch. -/
inductive ArithOp where
  | divide
  | idiv
  | modOp
deriving DecidableEq, Repr

/-- Evaluation outcomes of the division-like operators: the guarded
*Division by zero* error (code 11), or the C++ *undefined behaviour* of a
machine integer division by zero, which the guard does not prevent. -/
inductive ArithErr where
  | divisionByZero
  | machineDivByZero
deriving DecidableEq, Repr

/-- `static_cast<int>(double)`: truncation toward zero. -/
def truncQ (q : ℚ) : ℤ := if 0 ≤ q then ⌊q⌋ else -⌊-q⌋

/-- The `DIVIDE`, `BACKSLASH` and `MOD` cases of `Interpreter::eval_binary`.
Each checks `right == 0` on the *double* operand and raises *Division by
zero*; `BACKSLASH` and `MOD` then truncate both operands with
`static_cast<int>` and divide — so a divisor that is non-zero as a double
but truncates to integer `0` (any `0 < |right| < 1`) reaches a machine
integer division by zero, which C++ leaves undefined; the model makes that
outcome explicit as `machineDivByZero`.  C++ `int` division truncates
toward zero (`Int.tdiv` / `Int.tmod`). -/
def evalBinArith (op : ArithOp) (left right : ℚ) : Except ArithErr ℚ :=
  match op with
  | .divide =>
    if right = 0 then .error .divisionByZero else .ok (left / right)
  | .idiv =>
    if right = 0 then .error .divisionByZero
    else if truncQ right = 0 then .error .machineDivByZero
    else .ok (((truncQ left).tdiv (truncQ right) : ℤ) : ℚ)
  | .modOp =>
    if right = 0 then .error .divisionByZero
    else if truncQ right = 0 then .error .machineDivByZero
    else .ok (((truncQ left).tmod (truncQ right) : ℤ) : ℚ)

/-! ## Numeric formatting and parsing (value.hpp `to_string`,
interpreter.cpp `float_equal`, `builtin_val`) -/

/-- `float_equal` from interpreter.cpp: exact equality, or absolute
difference at most `max(1e-9, 1e-6 · max(|a|, |b|))`. -/
def floatEqual (a b : ℚ) : Bool :=
  if a = b then true
  else
    let diff := |a - b|
    let larger := max |a| |b|
    decide (diff ≤ max (1e-9) (larger * 1e-6))

/-- The ASCII character of a decimal digit. -/
def digitChar (d : ℕ) : Char := Char.ofNat (48 + d)

/-- Decimal digit characters of a natural number, most significant first
(the digit string produced by `std::to_string` on a non-negative value). -/
def natDecChars (n : ℕ) : List Char :=
  if n = 0 then ['0'] else (Nat.digits 10 n).reverse.map digitChar

/-- Decimal character string of an integer (`std::to_string(int64_t)`). -/
def intDecChars (n : ℤ) : List Char :=
  (if n < 0 then ['-'] else []) ++ natDecChars n.natAbs

/-- The fractional part of `std::to_string(double)`'s `%f` output: exactly
six digits, zero-padded on the left. -/
def pad6 (m : ℕ) : List Char :=
  List.replicate (6 - (natDecChars m).length) '0' ++ natDecChars m

/-- `std::to_string(double)`: fixed `%f` notation with six fractional
digits, i.e. the decimal rendering of the value correctly rounded to six
decimal places.  (An exact tie at the seventh decimal is impossible for a
binary floating-point input, so the tie-breaking choice — here `rintQ`'s
ties-to-even — never matters.) -/
def fixed6Chars (d : ℚ) : List Char :=
  let n : ℤ := rintQ (d * 1000000)
  (if d < 0 then ['-'] else []) ++
    natDecChars (n.natAbs / 1000000) ++ '.' :: pad6 (n.natAbs % 1000000)

/-- The trailing-zero cleanup in `to_string` (value.hpp): when the string
contains a `'.'`, pop trailing `'0'` characters and then a trailing `'.'`. -/
def stripZerosDot (cs : List Char) : List Char :=
  if cs.contains '.' then
    let r := cs.reverse.dropWhile (fun c => c = '0')
    (match r with
     | '.' :: t => t
     | _ => r).reverse
  else cs

/-- The float/double branch of `to_string` (value.hpp), hence also `STR$`
(`builtin_str`) of a `Double` value: an integral value of magnitude below
`1e10` prints as its integer digits; anything else goes through
`std::to_string`'s six-decimal fixed notation with trailing zeros (and a
lone trailing dot) removed.  Non-negative values get a leading space, and
every value gets a trailing space. -/
def fmtFloatChars (d : ℚ) : List Char :=
  let core : List Char :=
    if d.den = 1 ∧ |d| < 1e10 then intDecChars d.num
    else stripZerosDot (fixed6Chars d)
  (if 0 ≤ d then ' ' :: core else core) ++ [' ']

/-- `STR$` of a `Double` value as a Lean string. -/
def strDollarNum (d : ℚ) : String := ⟨fmtFloatChars d⟩

/-- The digit-run scanner inside `std::stod`: consume leading decimal
digits, returning their value, how many there were, and the rest. -/
def takeDigitsAux (acc k : ℕ) : List Char → ℕ × ℕ × List Char
  | [] => (acc, k, [])
  | c :: r =>
    if c.isDigit then takeDigitsAux (10 * acc + (c.toNat - 48)) (k + 1) r
    else (acc, k, c :: r)

/-- The sign clause of `std::stod`'s scanner: consume one leading `'-'`
(sign `-1`) or `'+'` (sign `1`); anything else leaves the input in place
with sign `1`. -/
def stodSign (cs : List Char) : ℚ × List Char :=
  match cs with
  | [] => (1, [])
  | c :: r =>
    if c = '-' then (-1, r)
    else if c = '+' then (1, r)
    else (1, c :: r)

/-- The fraction clause of `std::stod`'s scanner: a digit run after a
`'.'`, if present. -/
def stodFrac (cs : List Char) : ℕ × ℕ × List Char :=
  match cs with
  | [] => (0, 0, [])
  | c :: r => if c = '.' then takeDigitsAux 0 0 r else (0, 0, c :: r)

/-- The body of `std::stod` after whitespace skipping, restricted to the
plain decimal forms `[+|-][digits][.digits]` that `to_string` emits (no
exponent or hex input ever reaches it from `VAL(STR$(v))`): an optional
sign, an integer digit run and an optional fraction digit run; it fails
(`std::invalid_argument`) when both runs are empty, and stops at (ignores)
the first unusable character. -/
def stodCore (cs : List Char) : Option ℚ :=
  let signed := stodSign cs
  let ipart := takeDigitsAux 0 0 signed.2
  let fpart := stodFrac ipart.2.2
  if ipart.2.1 = 0 ∧ fpart.2.1 = 0 then none
  else some (signed.1 * ((ipart.1 : ℚ) + (fpart.1 : ℚ) / 10 ^ fpart.2.1))

/-- `std::stod`: skip leading whitespace, then scan a signed decimal. -/
def stod (s : String) : Option ℚ :=
  stodCore (s.data.dropWhile (fun c => c.isWhitespace))

/-- `Interpreter::builtin_val`: `std::stod` of the argument, with any
exception caught and turned into `0.0`. -/
def builtinVal (s : String) : ℚ := (stod s).getD 0

/-! ## Expression parsing fragment (parser.cpp `parse_unary`,
`parse_power`, `parse_primary`) and unary evaluation (interpreter.cpp
`eval_unary`) -/

/-- The tokens relevant to the `-a^b` grammar fragment. -/
inductive Tok where
  | num (x : ℚ)
  | minus
  | plus
  | power
deriving DecidableEq, Repr

/-- The AST fragment: number literals, unary minus, and `^`. -/
inductive PExpr where
  | numE (x : ℚ)
  | negE (e : PExpr)
  | powE (a b : PExpr)
deriving DecidableEq, Repr

/-- `Parser::parse_power` (restricted to number-literal primaries, which is
all the claim's expression `-a^b` uses): parse a primary, then — right
associatively — an optional `^` tail.  The base of `^` is a *primary*, so a
unary minus can never occur under `^` on the left. -/
def parsePower : List Tok → Option (PExpr × List Tok)
  | .num x :: .power :: r2 =>
    match parsePower r2 with
    | some (e2, r3) => some (.powE (.numE x) e2, r3)
    | none => none
  | .num x :: rest => some (.numE x, rest)
  | _ => none

/-- `Parser::parse_unary`: a leading `-` (or no-op `+`) applies to a whole
`parse_power` expression, so unary minus binds *looser* than `^`. -/
def parseUnary : List Tok → Option (PExpr × List Tok)
  | .minus :: rest =>
    match parseUnary rest with
    | some (e, r) => some (.negE e, r)
    | none => none
  | .plus :: rest => parseUnary rest
  | l => parsePower l

/-- Evaluation of the fragment, after `Interpreter::eval_unary` (case
`MINUS`: `-to_number(operand)`) and `eval_binary` (case `POWER`:
`std::pow(left, right)`).  All subterms here are numeric doubles, modelled
as `ℚ`; `std::pow` is an external libm routine and is taken as a parameter
`pw`. -/
def evalP (pw : ℚ → ℚ → ℚ) : PExpr → ℚ
  | .numE x => x
  | .negE e => -(evalP pw e)
  | .powE a b => pw (evalP pw a) (evalP pw b)

/-! ## Helper lemmas -/

/-- Coercion always produces a value of exactly the requested type. -/
theorem getType_coerceTo (v : Value) (t : VarType) :
    getType (coerceTo v t) = t := by
  cases t <;> cases v <;> simp [coerceTo, isString, getType]

/-- The default value of a type has that type. -/
theorem getType_defaultValue (t : VarType) :
    getType (defaultValue t) = t := by
  cases t <;> rfl

deriving instance DecidableEq for Except

/-- Looking up the key just stored yields the stored value. -/
theorem lookup_storePut (vars : List (String × Value)) (n : String) (v : Value) :
    (storePut vars n v).lookup n = some v := by
  induction vars with
  | nil => simp [storePut, List.lookup]
  | cons p rest ih =>
    obtain ⟨pn, pv⟩ := p
    by_cases h : pn = n
    · simp [storePut, h, List.lookup]
    · have hb : (n == pn) = false := by
        simp only [beq_eq_false_iff_ne, ne_eq]
        exact fun hh => h hh.symm
      simp [storePut, h, List.lookup, hb, ih]

/-- A stack whose entries are all non-GOSUB has no GOSUB to remove. -/
theorem removeNearestGosub_eq_none (l : List StackEntry)
    (h : ∀ e ∈ l, e.isGosub = false) : removeNearestGosub l = none := by
  induction l with
  | nil => rfl
  | cons e rest ih =>
    have he : e.isGosub = false := h e (by simp)
    have hr : removeNearestGosub rest = none :=
      ih (fun x hx => h x (by simp [hx]))
    cases e with
    | gosub p => simp [StackEntry.isGosub] at he
    | whileE p => simp [removeNearestGosub, hr]

/-- With no GOSUB above it, the last GOSUB frame is the one removed, and
every other entry is kept in order. -/
theorem removeNearestGosub_split (pre suf : List StackEntry) (rpc : PC)
    (hsuf : ∀ e ∈ suf, e.isGosub = false) :
    removeNearestGosub (pre ++ .gosub rpc :: suf) = some (pre ++ suf, rpc) := by
  induction pre with
  | nil =>
    simp [removeNearestGosub, removeNearestGosub_eq_none suf hsuf]
  | cons e rest ih =>
    simp [removeNearestGosub, ih]

/-! ## Claim C1 -/

/-- C1: the specification claims a `STRING ↔ numeric` mismatch in an
assignment raises *Type mismatch* (code 13).  The code does not: the scalar
branch of `set_lvalue` is `set_variable(name, coerce_to(val, type))`, and
`coerce_to` (value.hpp) is total — a string assigned to a numeric variable
is converted through `to_number` (whose source comment reads "Type mismatch
- should throw, but return 0 for now") and stores `0`, and a number
assigned to a string variable stores `""`.  This theorem evaluates the code
at both failing inputs: `LET a% = "hi"` silently stores integer `0`, and
`LET a$ = 3` silently stores the empty string; no error path even exists in
the type of `execLet`. -/
theorem exec_let_mismatch_stores_silently :
    (execLet {} ⟨"a%", .INTEGER⟩ (.vStr "hi")).vars.lookup "a%"
      = some (.vInt 0) ∧
    (execLet {} ⟨"a$", .STRING⟩ (.vDouble 3)).vars.lookup "a$"
      = some (.vStr "") := by
  with_unfolding_all decide

/-! ## Claim C2 -/

/-- C2: the specification says `NEXT` with no variable targets the most
recently pushed FOR.  `exec_next` instead uses
`runtime_.for_states.begin()->first`, the first element in the unordered
map's (unspecified) iteration order — the source comment admits "we don't
track order, so just pick one".  Evaluating the model (iteration order =
insertion order) at a state with FOR records for `a` (pushed first) and `b`
(pushed most recently): the bare `NEXT` steps `a`, not the innermost `b`
(whose record and variable are left untouched), and on an empty record map
it raises *NEXT without FOR* (code 1). -/
theorem exec_next_bare_steps_first_record :
    (execNextBare { for_states :=
        [("a", ⟨PC.runningAt 10 0, 10, 1⟩), ("b", ⟨PC.runningAt 20 0, 5, 1⟩)] }).1.vars.lookup "a"
      = some (.vSingle 1) ∧
    (execNextBare { for_states :=
        [("a", ⟨PC.runningAt 10 0, 10, 1⟩), ("b", ⟨PC.runningAt 20 0, 5, 1⟩)] }).1.vars.lookup "b"
      = none ∧
    (execNextBare { for_states :=
        [("a", ⟨PC.runningAt 10 0, 10, 1⟩), ("b", ⟨PC.runningAt 20 0, 5, 1⟩)] }).1.for_states.lookup "b"
      = some ⟨PC.runningAt 20 0, 5, 1⟩ ∧
    (execNextBare { for_states := [] }).2 = some 1 := by
  with_unfolding_all decide

/-! ## Claim C3 -/

/-- C3 counterexample: the claim (and spec) say `RETURN` pops the nearest
GOSUB *together with every WHILE entry above it*, so that afterwards no
WHILE pushed after the GOSUB remains.  On the stack
`[GOSUB (100,1), WHILE (20,0)]` (the WHILE pushed after the GOSUB),
`exec_return` erases only the GOSUB frame: the WHILE entry is still on the
stack afterwards, refuting the claim. -/
theorem exec_return_leaves_while_above :
    (execReturn { exec_stack :=
        [.gosub (PC.runningAt 100 1), .whileE (PC.runningAt 20 0)] } none).1.exec_stack
      = [.whileE (PC.runningAt 20 0)] ∧
    (execReturn { exec_stack :=
        [.gosub (PC.runningAt 100 1), .whileE (PC.runningAt 20 0)] } none).1.next_pc
      = some (PC.runningAt 100 1) := by
  with_unfolding_all decide

/-- C3 (amended): executing `RETURN` removes exactly the GOSUB entry
nearest the top of the execution stack — every other entry, including any
WHILE entries pushed after that GOSUB, stays on the stack in order — and
sets the pending jump target to that entry's return PC. -/
theorem exec_return_pops_only_nearest_gosub (pre suf : List StackEntry)
    (rpc : PC) (rt : Runtime)
    (hsuf : ∀ e ∈ suf, e.isGosub = false)
    (h : rt.exec_stack = pre ++ .gosub rpc :: suf) :
    (execReturn rt none).1.exec_stack = pre ++ suf ∧
    (execReturn rt none).1.next_pc = some rpc ∧
    (execReturn rt none).2 = none := by
  simp [execReturn, h, removeNearestGosub_split pre suf rpc hsuf]

/-- Witness for the amended C3 theorem at a concrete stack
`[WHILE (5,0), GOSUB (30,2), WHILE (40,1)]`. -/
theorem exec_return_pops_only_nearest_gosub_w :
    (execReturn { exec_stack := [.whileE (PC.runningAt 5 0),
        .gosub (PC.runningAt 30 2), .whileE (PC.runningAt 40 1)] } none).1.exec_stack
      = [.whileE (PC.runningAt 5 0), .whileE (PC.runningAt 40 1)] ∧
    (execReturn { exec_stack := [.whileE (PC.runningAt 5 0),
        .gosub (PC.runningAt 30 2), .whileE (PC.runningAt 40 1)] } none).1.next_pc
      = some (PC.runningAt 30 2) ∧
    (execReturn { exec_stack := [.whileE (PC.runningAt 5 0),
        .gosub (PC.runningAt 30 2), .whileE (PC.runningAt 40 1)] } none).2 = none := by
  exact exec_return_pops_only_nearest_gosub
    [.whileE (PC.runningAt 5 0)] [.whileE (PC.runningAt 40 1)]
    (PC.runningAt 30 2) _ (by with_unfolding_all decide) rfl

/-! ## Claim C4 -/

/-- The two-line program `10 DATA 1,2 : DATA 3` / `40 REM`, as seen by
`collect_data`. -/
def progC4 : List (ℤ × List DStmt) :=
  [(10, [.data [.vDouble 1, .vDouble 2], .data [.vDouble 3]]), (40, [.other])]

/-- C4: the claim (and spec) say the line → index map sends a line to the
pool index of the first value of the *first* `DATA` statement on that line,
even with several `DATA` statements on the line.  `collect_data` overwrites
the map entry for each `DATA` statement it sees, so for
`10 DATA 1,2 : DATA 3` the map sends 10 to index 2 — the first value of the
*last* `DATA` statement — although the first `DATA` value of line 10 sits
at index 0.  Consequently `RESTORE 10` parks the cursor at index 2 and the
next `READ` yields `3`, not `1`. -/
theorem collect_data_maps_line_to_last_data :
    (collectData progC4).1 = [.vDouble 1, .vDouble 2, .vDouble 3] ∧
    (collectData progC4).2.lookup 10 = some 2 ∧
    restoreData (collectData progC4).1 (collectData progC4).2 (some 10) = 2 ∧
    readData (collectData progC4).1 2 = .ok (.vDouble 3, 3) := by
  with_unfolding_all decide

/-! ## Claim C6 -/

/-- C6 counterexample: the claim says evaluating `a \ b` raises *Division
by zero* exactly when the divisor is zero *and never performs an unguarded
machine division by zero*.  At `1 \ 0.5` the guard `right == 0` does not
fire (the divisor is a non-zero double), yet both operands are then
truncated with `static_cast<int>` and `int(0.5) = 0`, so the machine
integer division divides by zero — undefined behaviour in C++, explicit in
the model. -/
theorem int_div_half_machine_div_by_zero :
    evalBinArith .idiv 1 (1/2) = .error .machineDivByZero ∧
    ((1 : ℚ)/2 ≠ 0) ∧
    evalBinArith .idiv 1 (1/2) ≠ .error .divisionByZero := by
  with_unfolding_all decide

/-- C6 (amended): each of `/`, `\` and `MOD` raises *Division by zero*
exactly when the divisor equals zero; `/` never reaches a machine division
by zero, but `\` and `MOD` perform a machine integer division by zero
(undefined behaviour) exactly when the divisor is non-zero yet truncates to
integer `0`, i.e. `0 < |divisor| < 1`. -/
theorem eval_binary_division_guards (l r : ℚ) :
    (evalBinArith .divide l r = .error .divisionByZero ↔ r = 0) ∧
    (evalBinArith .idiv l r = .error .divisionByZero ↔ r = 0) ∧
    (evalBinArith .modOp l r = .error .divisionByZero ↔ r = 0) ∧
    (evalBinArith .divide l r ≠ .error .machineDivByZero) ∧
    (evalBinArith .idiv l r = .error .machineDivByZero ↔ r ≠ 0 ∧ truncQ r = 0) ∧
    (evalBinArith .modOp l r = .error .machineDivByZero ↔ r ≠ 0 ∧ truncQ r = 0) := by
  by_cases hr : r = 0
  · simp [evalBinArith, hr]
  · by_cases ht : truncQ r = 0 <;> simp [evalBinArith, hr, ht]

/-! ## Claim C7 -/

/-- The typing invariant of the scalar store: every stored binding holds a
value whose runtime type is the binding name's resolved type. -/
def WellTypedStore (dtm : Char → VarType) (vars : List (String × Value)) : Prop :=
  ∀ p ∈ vars, getType p.2 = resolveType dtm p.1

/-- A successful lookup comes from a binding in the list. -/
theorem mem_of_lookup_eq_some (vars : List (String × Value)) (n : String)
    (v : Value) (h : vars.lookup n = some v) : (n, v) ∈ vars := by
  induction vars with
  | nil => simp [List.lookup] at h
  | cons p rest ih =>
    obtain ⟨pn, pv⟩ := p
    by_cases hn : n = pn
    · subst hn
      simp [List.lookup] at h
      simp [h]
    · have hb : (n == pn) = false := by
        simp only [beq_eq_false_iff_ne, ne_eq]
        exact hn
      simp only [List.lookup, hb] at h
      exact List.mem_cons_of_mem _ (ih h)

/-- Storing a value of the binding's resolved type preserves the typing
invariant. -/
theorem wellTyped_storePut (dtm : Char → VarType)
    (vars : List (String × Value)) (n : String) (v : Value)
    (h : WellTypedStore dtm vars) (hv : getType v = resolveType dtm n) :
    WellTypedStore dtm (storePut vars n v) := by
  induction vars with
  | nil =>
    intro p hp
    simp [storePut] at hp
    subst hp
    exact hv
  | cons q rest ih =>
    obtain ⟨qn, qv⟩ := q
    have hq : getType qv = resolveType dtm qn := h (qn, qv) (by simp)
    have hrest : WellTypedStore dtm rest :=
      fun p hp => h p (List.mem_cons_of_mem _ hp)
    by_cases he : qn = n
    · subst he
      intro p hp
      simp [storePut] at hp
      rcases hp with hp | hp
      · subst hp; exact hv
      · exact hrest p hp
    · intro p hp
      simp only [storePut, if_neg he] at hp
      rcases List.mem_cons.mp hp with hp | hp
      · subst hp; exact hq
      · exact ih hrest p hp

/-- C7: any read of the scalar store yields a value whose runtime type is
the name's resolved type (suffix, else `DEFtype` for the first letter,
else `SINGLE`): a never-assigned variable reads as that type's zero value,
and `set_variable` stores the right-hand value coerced to that type, so the
typing invariant is preserved by every store write. -/
theorem scalar_store_well_typed (dtm : Char → VarType)
    (vars : List (String × Value)) (n : String) (v : Value)
    (h : WellTypedStore dtm vars) :
    getType (getVariableS dtm vars n) = resolveType dtm n ∧
    WellTypedStore dtm (setVariableS dtm vars n v) ∧
    getVariableS dtm [] n = defaultValue (resolveType dtm n) := by
  refine ⟨?_, ?_, rfl⟩
  · unfold getVariableS
    cases hl : vars.lookup n with
    | none => exact getType_defaultValue _
    | some w => exact h (n, w) (mem_of_lookup_eq_some vars n w hl)
  · exact wellTyped_storePut dtm vars n _ h (getType_coerceTo v _)

/-- Witness for the C7 theorem: the invariant holds of the initial store
`{err% ↦ 0}`, reading the unassigned `x$` yields a string, and assigning
the double `3` to `x$` keeps the store well typed. -/
theorem scalar_store_well_typed_w :
    getType (getVariableS (fun _ => .SINGLE) [("err%", .vInt 0)] "x$")
      = resolveType (fun _ => .SINGLE) "x$" ∧
    WellTypedStore (fun _ => .SINGLE)
      (setVariableS (fun _ => .SINGLE) [("err%", .vInt 0)] "x$" (.vDouble 3)) ∧
    getVariableS (fun _ => .SINGLE) [] "x$"
      = defaultValue (resolveType (fun _ => .SINGLE) "x$") :=
  scalar_store_well_typed (fun _ => .SINGLE) [("err%", .vInt 0)] "x$"
    (.vDouble 3)
    (by
      intro p hp
      simp only [List.mem_singleton] at hp
      subst hp
      with_unfolding_all decide)

/-! ## Claim C9 -/

/-- Any suffix-free resolution step is irrelevant for `err%`: its `%`
suffix resolves it to `INTEGER` under every `DEFtype` map. -/
theorem resolveType_err (dtm : Char → VarType) :
    resolveType dtm "err%" = .INTEGER := by
  with_unfolding_all rfl

/-- Coercing the integer zero to `INTEGER` is the identity. -/
theorem coerceTo_int_zero : coerceTo (.vInt 0) .INTEGER = .vInt 0 := by
  with_unfolding_all rfl

/-- C9: executing `CLEAR` calls `Runtime::reset`, which parks the PC on the
program's *first* statement and clears the pending jump target; the tick's
normal `advance_pc` therefore continues at the statement *after the first
statement of the program* (not after the `CLEAR`).  `reset` also resets
`OPTION BASE` to 0 and disables the error handler, while `user_functions`
and `breakpoints` are untouched. -/
theorem clear_resets_pc_and_state (rt : Runtime)
    (h : rt.statements.lines ≠ []) :
    (advancePc (execClear rt)).pc
      = rt.statements.next rt.statements.first ∧
    (advancePc (execClear rt)).array_base = 0 ∧
    (advancePc (execClear rt)).error_handler_line = none ∧
    (advancePc (execClear rt)).user_functions = rt.user_functions ∧
    (advancePc (execClear rt)).breakpoints = rt.breakpoints := by
  obtain ⟨p, rest, hl⟩ := List.exists_cons_of_ne_nil h
  have hfirst : rt.statements.first = PC.runningAt p.1 0 := by
    simp [StatementTable.first, hl]
  refine ⟨?_, ?_, ?_, ?_, ?_⟩ <;>
    simp [execClear, Runtime.reset, advancePc, hfirst, PC.isRunning,
      PC.runningAt]

/-- The concrete runtime used as the C9 witness: a two-statement program on
line 10, a user function, a breakpoint, a non-zero `OPTION BASE` and an
installed error handler. -/
def rtC9 : Runtime :=
  { pc := PC.runningAt 10 1
    statements := ⟨[(10, 2), (20, 1)]⟩
    user_functions := ["fna"]
    breakpoints := [PC.runningAt 20 0]
    array_base := 1
    error_handler_line := some 20 }

/-- Witness for the C9 theorem at `rtC9`. -/
theorem clear_resets_pc_and_state_w :
    (advancePc (execClear rtC9)).pc
      = rtC9.statements.next rtC9.statements.first ∧
    (advancePc (execClear rtC9)).array_base = 0 ∧
    (advancePc (execClear rtC9)).error_handler_line = none ∧
    (advancePc (execClear rtC9)).user_functions = rtC9.user_functions ∧
    (advancePc (execClear rtC9)).breakpoints = rtC9.breakpoints :=
  clear_resets_pc_and_state rtC9 (by with_unfolding_all decide)

/-! ## Claim C10 -/

/-- C10: executing `RESUME` with no outstanding error (no captured error
PC) raises *RESUME without error* (code 20), but `err%` has already been
reset to `0` before that check — so whatever error code `ERR%` held before
the failing `RESUME` is lost. -/
theorem resume_without_error_clears_err (rt : Runtime) (s : ResumeStmt)
    (h : rt.error_pc = none) :
    (execResume rt s).2 = some 20 ∧
    (execResume rt s).1.getVariable "err%" = .vInt 0 ∧
    (execResume rt s).1.last_error_code = 20 := by
  have hvars : (execResume rt s).1.vars
        = storePut rt.vars "err%" (.vInt 0) ∧
      (execResume rt s).2 = some 20 ∧
      (execResume rt s).1.last_error_code = 20 ∧
      (execResume rt s).1.def_type_map = rt.def_type_map := by
    simp [execResume, Runtime.setVariable, h, raiseError, setVariableS,
      resolveType_err, coerceTo_int_zero]
  refine ⟨hvars.2.1, ?_, hvars.2.2.1⟩
  rw [Runtime.getVariable, hvars.2.2.2, hvars.1, getVariableS,
    lookup_storePut]

/-- The concrete runtime used as the C10 witness: no outstanding error PC,
while `err%` still holds the previous error code 11. -/
def rtC10 : Runtime := { error_pc := none, vars := [("err%", .vInt 11)] }

/-- Witness for the C10 theorem at `rtC10`: the failed `RESUME` reports
code 20 and `err%` reads 0 — the previous code 11 is gone. -/
theorem resume_without_error_clears_err_w :
    (execResume rtC10 {}).2 = some 20 ∧
    (execResume rtC10 {}).1.getVariable "err%" = .vInt 0 ∧
    (execResume rtC10 {}).1.last_error_code = 20 :=
  resume_without_error_clears_err rtC10 {} rfl

/-! ## Claim C8 -/

/-- C8: unary minus binds looser than `^`.  For all numeric `a`, `b`, the
token sequence of `-a^b` parses to `Unary(MINUS, Binary(POWER, a, b))` —
so evaluation yields `-(a^b)` for every power routine `pw` — and at
`a = b = 2` (given that `pow(2,2) = 4` like `std::pow`) the expression
`-2^2` evaluates to `-4`. -/
theorem unary_minus_binds_looser_than_power (pw : ℚ → ℚ → ℚ) (a b : ℚ)
    (h4 : pw 2 2 = 4) :
    parseUnary [.minus, .num a, .power, .num b]
      = some (.negE (.powE (.numE a) (.numE b)), []) ∧
    evalP pw (.negE (.powE (.numE a) (.numE b))) = -(pw a b) ∧
    evalP pw ((parseUnary [.minus, .num 2, .power, .num 2]).getD
        (.numE 0, [])).1 = -4 := by
  refine ⟨rfl, by simp [evalP], ?_⟩
  show evalP pw (.negE (.powE (.numE 2) (.numE 2))) = -4
  simp [evalP, h4]

/-- Witness for the C8 theorem with `pw x y = x * y` (which satisfies
`pw 2 2 = 4`), `a = 3`, `b = 5`. -/
theorem unary_minus_binds_looser_than_power_w :
    parseUnary [.minus, .num 3, .power, .num 5]
      = some (.negE (.powE (.numE 3) (.numE 5)), []) ∧
    evalP (fun x y => x * y) (.negE (.powE (.numE 3) (.numE 5)))
      = -((fun x y : ℚ => x * y) 3 5) ∧
    evalP (fun x y => x * y)
      ((parseUnary [.minus, .num 2, .power, .num 2]).getD
        (.numE 0, [])).1 = -4 :=
  unary_minus_binds_looser_than_power (fun x y => x * y) 3 5 (by norm_num)

/-! ## Claim C5: digit-level lemmas -/

/-- Character facts about a single decimal digit. -/
theorem digitChar_spec (d : ℕ) (h : d < 10) :
    (digitChar d).isDigit = true ∧ (digitChar d).toNat - 48 = d ∧
    (digitChar d).isWhitespace = false ∧ ¬digitChar d = '-' ∧
    ¬digitChar d = '+' ∧ ¬digitChar d = '.' := by
  interval_cases d <;> exact (by with_unfolding_all decide)

/-- Every character printed by `natDecChars` is a decimal digit
character. -/
theorem natDecChars_digits (n : ℕ) :
    ∀ c ∈ natDecChars n, ∃ d, d < 10 ∧ c = digitChar d := by
  intro c hc
  unfold natDecChars at hc
  by_cases h : n = 0
  · rw [if_pos h] at hc
    simp at hc
    exact ⟨0, by norm_num, by rw [hc]; with_unfolding_all rfl⟩
  · rw [if_neg h] at hc
    obtain ⟨d, hd, rfl⟩ := List.mem_map.mp hc
    exact ⟨d, Nat.digits_lt_base (by norm_num) (List.mem_reverse.mp hd), rfl⟩

/-- The printed digit string of a natural number is never empty. -/
theorem natDecChars_ne_nil (n : ℕ) : natDecChars n ≠ [] := by
  unfold natDecChars
  by_cases h : n = 0
  · simp [h]
  · rw [if_neg h]
    simp [Nat.digits_ne_nil_iff_ne_zero, h]

/-- `takeDigitsAux` consumes exactly a leading digit run, folding up its
value, and leaves the non-digit remainder in place. -/
theorem takeDigitsAux_digit_run (ds : List Char) (rest : List Char)
    (hds : ∀ c ∈ ds, c.isDigit = true)
    (hrest : ∀ c, rest.head? = some c → c.isDigit = false) :
    ∀ acc k, takeDigitsAux acc k (ds ++ rest)
      = (List.foldl (fun a c => 10 * a + (c.toNat - 48)) acc ds,
         k + ds.length, rest) := by
  induction ds with
  | nil =>
    intro acc k
    cases rest with
    | nil => simp [takeDigitsAux]
    | cons c r =>
      have hc : c.isDigit = false := hrest c rfl
      simp [takeDigitsAux, hc]
  | cons c ds ih =>
    intro acc k
    have hc : c.isDigit = true := hds c (by simp)
    have ihh := ih (fun x hx => hds x (by simp [hx]))
    simp only [List.cons_append, takeDigitsAux, hc, if_pos, List.append_eq]
    rw [ihh]
    simp only [List.foldl_cons, List.length_cons]
    refine congrArg₂ Prod.mk rfl (congrArg₂ Prod.mk ?_ rfl)
    omega

/-- Replacing digit characters by their digit values inside the parsing
fold. -/
theorem foldl_digitChar_eq (L : List ℕ) (hL : ∀ d ∈ L, d < 10) :
    ∀ acc : ℕ,
      List.foldl (fun a c => 10 * a + (c.toNat - 48)) acc (L.map digitChar)
        = List.foldl (fun a d => 10 * a + d) acc L := by
  induction L with
  | nil => intro acc; rfl
  | cons d t ih =>
    intro acc
    have hd := (digitChar_spec d (hL d (by simp))).2.1
    simp only [List.map_cons, List.foldl_cons, hd]
    exact ih (fun x hx => hL x (by simp [hx])) _

/-- Folding base-10 accumulation over the big-endian digit list recovers
the number. -/
theorem foldl_base10_reverse (L : List ℕ) :
    ∀ acc : ℕ,
      List.foldl (fun a d => 10 * a + d) acc L.reverse
        = acc * 10 ^ L.length + Nat.ofDigits 10 L := by
  induction L with
  | nil => intro acc; simp
  | cons d t ih =>
    intro acc
    simp only [List.reverse_cons, List.foldl_append, List.foldl_cons,
      List.foldl_nil, ih, Nat.ofDigits_cons, List.length_cons, pow_succ]
    ring

/-- Parsing the printed digits of `n` yields `n`. -/
theorem decValue_natDecChars (n : ℕ) :
    List.foldl (fun a c => 10 * a + (c.toNat - 48)) 0 (natDecChars n) = n := by
  unfold natDecChars
  by_cases h : n = 0
  · rw [if_pos h, h]
    with_unfolding_all rfl
  · rw [if_neg h,
      foldl_digitChar_eq _
        (fun d hd => Nat.digits_lt_base (by norm_num) (List.mem_reverse.mp hd)),
      foldl_base10_reverse]
    simp [Nat.ofDigits_digits]

/-- `takeDigitsAux` on a printed number followed by a non-digit remainder
returns the number, the digit count, and the remainder. -/
theorem takeDigitsAux_natDecChars (n : ℕ) (rest : List Char)
    (hrest : ∀ c, rest.head? = some c → c.isDigit = false) :
    takeDigitsAux 0 0 (natDecChars n ++ rest)
      = (n, (natDecChars n).length, rest) := by
  rw [takeDigitsAux_digit_run (natDecChars n) rest
      (fun c hc => by
        obtain ⟨d, hd, rfl⟩ := natDecChars_digits n c hc
        exact (digitChar_spec d hd).1)
      hrest 0 0,
    decValue_natDecChars]
  simp

/-! ## Claim C5: the round trip -/

/-- Scanning a printed natural number followed by a single space under a
sign already consumed yields exactly that number. -/
theorem stodCore_int (sg : ℚ) (m : ℕ) (cs : List Char)
    (hsign : stodSign cs = (sg, natDecChars m ++ [' '])) :
    stodCore cs = some (sg * m) := by
  have hrest : ∀ c, ([' '] : List Char).head? = some c → c.isDigit = false := by
    intro c hc
    simp at hc
    subst hc
    decide
  have hlen : (natDecChars m).length ≠ 0 := by
    simpa using natDecChars_ne_nil m
  unfold stodCore
  rw [hsign]
  simp only [takeDigitsAux_natDecChars m [' '] hrest]
  have hfrac : stodFrac [' '] = (0, 0, [' ']) := by decide
  simp [hfrac, hlen]

/-- C5 (amended): for every value `v` that is an exact integer with
`|v| < 1e10` — the integer branch of `to_string` — `VAL(STR$(v))` recovers
`v` exactly.  (Values on the other branch are printed by `std::to_string`'s
six-decimal fixed notation, so the round trip only holds up to `5e-7`
absolute error, which violates the §4.4 tolerance for small magnitudes —
see the counterexample at `v = 1e-8`.) -/
theorem val_str_roundtrip_int (v : ℚ) (h1 : v.den = 1) (h2 : |v| < 1e10) :
    builtinVal (strDollarNum v) = v := by
  have hv : ((v.num : ℚ)) = v := by
    conv_rhs => rw [← Rat.num_div_den v]
    rw [h1]
    simp
  set m : ℕ := v.num.natAbs with hm
  obtain ⟨c, t, hct⟩ := List.exists_cons_of_ne_nil (natDecChars_ne_nil m)
  obtain ⟨d, hd10, hcd⟩ := natDecChars_digits m c (by rw [hct]; simp)
  have hspec := digitChar_spec d hd10
  by_cases hpos : 0 ≤ v
  · have hnum : 0 ≤ v.num := Rat.num_nonneg.mpr hpos
    have hmz : (m : ℤ) = v.num := by omega
    have hdata : (strDollarNum v).data = ' ' :: (natDecChars m ++ [' ']) := by
      simp [strDollarNum, fmtFloatChars, h1, h2, hpos, intDecChars,
        not_lt.mpr hnum]
    have hdrop : (strDollarNum v).data.dropWhile (fun c => c.isWhitespace)
        = natDecChars m ++ [' '] := by
      rw [hdata, List.dropWhile_cons, if_pos (by decide), hct,
        List.cons_append, List.dropWhile_cons,
        if_neg (by rw [hcd, hspec.2.2.1]; simp)]
    have hstod : stod (strDollarNum v) = some (1 * (m : ℚ)) := by
      rw [stod, hdrop]
      apply stodCore_int
      rw [hct, List.cons_append, stodSign]
      simp only [hcd]
      rw [if_neg hspec.2.2.2.1, if_neg hspec.2.2.2.2.1]
    rw [builtinVal, hstod]
    simp only [Option.getD_some, one_mul]
    rw [show ((m : ℚ)) = ((m : ℤ) : ℚ) by push_cast; ring, hmz, hv]
  · have hnum : v.num < 0 := by
      by_contra hh
      exact hpos (Rat.num_nonneg.mp (not_lt.mp hh))
    have hmz : (m : ℤ) = -v.num := by omega
    have hdata : (strDollarNum v).data = '-' :: (natDecChars m ++ [' ']) := by
      simp [strDollarNum, fmtFloatChars, h1, h2, hpos, intDecChars, hnum]
    have hdrop : (strDollarNum v).data.dropWhile (fun c => c.isWhitespace)
        = '-' :: (natDecChars m ++ [' ']) := by
      rw [hdata, List.dropWhile_cons, if_neg (by decide)]
    have hstod : stod (strDollarNum v) = some (-1 * (m : ℚ)) := by
      rw [stod, hdrop]
      apply stodCore_int
      rw [stodSign, if_pos rfl]
    rw [builtinVal, hstod]
    simp only [Option.getD_some, neg_one_mul]
    rw [show ((m : ℚ)) = ((m : ℤ) : ℚ) by push_cast; ring, hmz]
    push_cast
    simp [hv]

/-- Witness for the amended C5 theorem at `v = 42`. -/
theorem val_str_roundtrip_int_w : builtinVal (strDollarNum 42) = 42 :=
  val_str_roundtrip_int 42 (by with_unfolding_all rfl) (by norm_num)

/-- C5 counterexample: at `v = 1e-8` (finite, `|v| < 1e15`) the round trip
fails under the §4.4 tolerance.  `STR$(1e-8)` goes through
`std::to_string`'s six-decimal fixed notation, giving `" 0 "` after
zero-stripping, so `VAL(STR$(v)) = 0`; but
`|1e-8 - 0| = 1e-8 > max(1e-9, 1e-6 · 1e-8)`, so `float_equal` rejects the
pair. -/
theorem val_str_small_violates_tolerance :
    builtinVal (strDollarNum (1/100000000)) = 0 ∧
    floatEqual (1/100000000) (builtinVal (strDollarNum (1/100000000)))
      = false := by
  with_unfolding_all decide

end MBasic
